import Mathlib

/-!
Shallow embedding of the vehicle localization-and-steering control loop
(`src/main.rs`) for checking the natural-language specification.

Modelling conventions:
* `f64` values are modelled by `ℝ` (exact real arithmetic); the quadrant
  classifier `Quadrant.from_pos`, whose comparisons are exact on the dyadic
  inputs the claims use, is modelled over `ℚ` so that it is decidable.
* Rust `&str` is modelled by `List Char`; `str::trim` /
  `to_ascii_uppercase` are modelled by ASCII-faithful list operations.
* A fallible HTTP call is an `Except Unit` value supplied as an input;
  an absent (failed-to-fetch / failed-to-decode) camera frame is `none`, a
  frame whose detector invocation failed is `some (.error ())`.
* A Rust `panic!` / `Option::unwrap` on `None` is modelled by the `none`
  value of an outer `Option` in the result type.
-/

-- ─── Configuration constants (src/main.rs lines 34-40) ───────────────────────

def CAR_MARKER_ID : Int := 9

/-- Heading error (rad) below which the car drives forward instead of
spinning (`ANGLE_OK`). -/
def ANGLE_OK : ℝ := 0.50

/-- `TURN_POLARITY`: compiled-in sign flag, set to `-1.0` in the source. -/
def TURN_POLARITY : ℝ := -1.0

-- ─── Quadrant (src/main.rs lines 50-77) ──────────────────────────────────────

inductive Quadrant where
  | TopLeft
  | TopRight
  | BottomLeft
  | BottomRight
deriving DecidableEq, Repr

/-- `Quadrant::from_pos`: classify a point against the frame midlines.
The source matches on the pair of booleans `(x > w/2.0, y > h/2.0)`. -/
def Quadrant.from_pos (x y w h : ℚ) : Quadrant :=
  match decide (x > w / 2), decide (y > h / 2) with
  | false, false => Quadrant.TopLeft
  | true, false => Quadrant.TopRight
  | false, true => Quadrant.BottomLeft
  | true, true => Quadrant.BottomRight

/-- ASCII whitespace test, modelling what `str::trim` strips (the claims only
exercise ASCII input). -/
def isWhite (c : Char) : Bool :=
  c = ' ' || c = '\t' || c = '\n' || c = '\r'

/-- Model of `str::trim` on a character list. -/
def trimChars (s : List Char) : List Char :=
  ((s.dropWhile isWhite).reverse.dropWhile isWhite).reverse

/-- Model of `str::to_ascii_uppercase` (per-character ASCII uppercase). -/
def toUpperChars (s : List Char) : List Char :=
  s.map Char.toUpper

/-- `Quadrant::parse`: trim, ASCII-uppercase, then match against the accepted
alias strings (src/main.rs lines 68-76). -/
def Quadrant.parse (s : List Char) : Option Quadrant :=
  let t := toUpperChars (trimChars s)
  if t = ['1', '3'] ∨ t = ['T', 'L'] ∨ t = ['Q', '1'] ∨ t = ['1'] ∨
      t = ['T', 'O', 'P', '_', 'L', 'E', 'F', 'T'] then
    some Quadrant.TopLeft
  else if t = ['1', '1'] ∨ t = ['T', 'R'] ∨ t = ['Q', '2'] ∨ t = ['2'] ∨
      t = ['T', 'O', 'P', '_', 'R', 'I', 'G', 'H', 'T'] then
    some Quadrant.TopRight
  else if t = ['1', '4'] ∨ t = ['B', 'L'] ∨ t = ['Q', '3'] ∨ t = ['3'] ∨
      t = ['B', 'O', 'T', 'T', 'O', 'M', '_', 'L', 'E', 'F', 'T'] then
    some Quadrant.BottomLeft
  else if t = ['1', '2'] ∨ t = ['B', 'R'] ∨ t = ['Q', '4'] ∨ t = ['4'] ∨
      t = ['B', 'O', 'T', 'T', 'O', 'M', '_', 'R', 'I', 'G', 'H', 'T'] then
    some Quadrant.BottomRight
  else
    none

-- ─── DriveCmd (src/main.rs lines 44-48) ──────────────────────────────────────

@[ext]
structure DriveCmd where
  speed : ℝ
  flip : Bool

-- ─── Steering policy (src/main.rs lines 350-389) ─────────────────────────────

/-- `f64::atan2`: the argument of the complex number `x + y·i`
(range `(-π, π]`, matching the two-argument arctangent on nonzero input). -/
noncomputable def atan2 (y x : ℝ) : ℝ :=
  Complex.arg (Complex.ofReal x + Complex.ofReal y * Complex.I)

/-- The first normalization loop in `steer`:
`while err > PI { err -= 2.0 * PI }`. -/
noncomputable def wrapDown (e : ℝ) : ℝ :=
  if Real.pi < e then wrapDown (e - 2 * Real.pi) else e
termination_by Nat.ceil ((e - Real.pi) / (2 * Real.pi))
decreasing_by
  have hpi := Real.pi_pos
  have h2 : (0 : ℝ) < 2 * Real.pi := by linarith
  have key : (e - 2 * Real.pi - Real.pi) / (2 * Real.pi)
      = (e - Real.pi) / (2 * Real.pi) - 1 := by
    field_simp
    ring
  rw [key]
  have ht : (0 : ℝ) < (e - Real.pi) / (2 * Real.pi) :=
    div_pos (by linarith) h2
  have hone : 1 ≤ Nat.ceil ((e - Real.pi) / (2 * Real.pi)) :=
    Nat.ceil_pos.mpr ht
  have hle : Nat.ceil ((e - Real.pi) / (2 * Real.pi) - 1)
      ≤ Nat.ceil ((e - Real.pi) / (2 * Real.pi)) - 1 := by
    apply Nat.ceil_le.mpr
    have hcast : ((Nat.ceil ((e - Real.pi) / (2 * Real.pi)) - 1 : ℕ) : ℝ)
        = (Nat.ceil ((e - Real.pi) / (2 * Real.pi)) : ℝ) - 1 := by
      push_cast [Nat.cast_sub hone]
      ring
    rw [hcast]
    have := Nat.le_ceil ((e - Real.pi) / (2 * Real.pi))
    linarith
  exact lt_of_le_of_lt hle
    (Nat.sub_lt (lt_of_lt_of_le Nat.zero_lt_one hone) Nat.zero_lt_one)

/-- The second normalization loop in `steer`:
`while err < -PI { err += 2.0 * PI }`. -/
noncomputable def wrapUp (e : ℝ) : ℝ :=
  if e < -Real.pi then wrapUp (e + 2 * Real.pi) else e
termination_by Nat.ceil ((-Real.pi - e) / (2 * Real.pi))
decreasing_by
  have hpi := Real.pi_pos
  have h2 : (0 : ℝ) < 2 * Real.pi := by linarith
  have key : (-Real.pi - (e + 2 * Real.pi)) / (2 * Real.pi)
      = (-Real.pi - e) / (2 * Real.pi) - 1 := by
    field_simp
    ring
  rw [key]
  have ht : (0 : ℝ) < (-Real.pi - e) / (2 * Real.pi) :=
    div_pos (by linarith) h2
  have hone : 1 ≤ Nat.ceil ((-Real.pi - e) / (2 * Real.pi)) :=
    Nat.ceil_pos.mpr ht
  have hle : Nat.ceil ((-Real.pi - e) / (2 * Real.pi) - 1)
      ≤ Nat.ceil ((-Real.pi - e) / (2 * Real.pi)) - 1 := by
    apply Nat.ceil_le.mpr
    have hcast : ((Nat.ceil ((-Real.pi - e) / (2 * Real.pi)) - 1 : ℕ) : ℝ)
        = (Nat.ceil ((-Real.pi - e) / (2 * Real.pi)) : ℝ) - 1 := by
      push_cast [Nat.cast_sub hone]
      ring
    rw [hcast]
    have := Nat.le_ceil ((-Real.pi - e) / (2 * Real.pi))
    linarith
  exact lt_of_le_of_lt hle
    (Nat.sub_lt (lt_of_lt_of_le Nat.zero_lt_one hone) Nat.zero_lt_one)

/-- The heading-error normalization performed inline in `steer`
(src/main.rs lines 364-370): subtract-loop, then add-loop. -/
noncomputable def normalizeErr (e : ℝ) : ℝ :=
  wrapUp (wrapDown e)

/-- `steer`: compute a drive command from `pos`/`hdg` toward `target`
(src/main.rs lines 350-389). -/
noncomputable def steer (pos : ℝ × ℝ) (hdg : ℝ) (target : ℝ × ℝ) : DriveCmd :=
  let dx := target.1 - pos.1
  let dy := target.2 - pos.2
  let dist := Real.sqrt (dx * dx + dy * dy)
  let desired := atan2 dy dx
  let err := normalizeErr (desired - hdg)
  if ANGLE_OK < |err| then
    { speed := TURN_POLARITY * (if 0 < err then 0.2 else -0.2), flip := true }
  else
    { speed := min (max (dist / 300) 0.45) 0.85, flip := false }

/-- `f64::hypot a b`: Euclidean norm of `(a, b)` (used for the arrival
distance, src/main.rs line 243). -/
noncomputable def hypot (a b : ℝ) : ℝ :=
  Real.sqrt (a * a + b * b)

-- ─── Detection results and frame fusion (src/main.rs lines 131-213) ──────────

/-- One marker observation: `((centre_x, centre_y), heading_radians)`,
mirroring the Rust value type `((f64, f64), f64)` of `detect_car`. -/
def Obs : Type := (ℝ × ℝ) × ℝ

/-- A successfully fetched, decoded and detector-processed frame: the
detection map `id ↦ observation` together with the frame dimensions
(`Mat::cols` / `Mat::rows`, already cast to `f64`). -/
structure ProcFrame where
  items : Int → Option Obs
  cols : ℝ
  rows : ℝ

/-- What one camera slot contributes to a tick: `none` when the fetch or the
JPEG decode failed (`frame1`/`frame2` is `None`), `some (.error ())` when
`detect_car` returned `Err` (the loop body `continue`s), `some (.ok f)` when
detection succeeded. -/
def FrameResult : Type := Option (Except Unit ProcFrame)

/-- The four landmark slots `tl`, `tr`, `bl`, `br` of the main loop. -/
structure Mem where
  tl : Option Obs
  tr : Option Obs
  bl : Option Obs
  br : Option Obs

/-- The landmark-marker ID that the main loop associates with each quadrant
(ids 13, 11, 14, 12 in the four `if let` blocks). -/
def landmarkId : Quadrant → Int
  | Quadrant.TopLeft => 13
  | Quadrant.TopRight => 11
  | Quadrant.BottomLeft => 14
  | Quadrant.BottomRight => 12

/-- One `if let Some(&pos) = items.get(&id)` block of the fusion loop:
update the landmark slot and extend the `found` flag when the seen landmark
is the targeted quadrant's. -/
def procLandmark (tgt q : Quadrant) (item slot : Option Obs) (found : Bool) :
    Option Obs × Bool :=
  match item with
  | some pos => (some pos, found || decide (tgt = q))
  | none => (slot, found)

/-- The running state of the fusion loop: landmark memory, fused car
observation, and the `w`/`h` frame-dimension options. -/
def FuseState : Type := Mem × Option Obs × Option ℝ × Option ℝ

/-- The body of the fusion loop for one successfully processed frame
(src/main.rs lines 166-212). -/
def processFrame (tgt : Quadrant) (st : FuseState) (f : ProcFrame) :
    FuseState :=
  let frameCar := f.items CAR_MARKER_ID
  let p13 := procLandmark tgt Quadrant.TopLeft (f.items 13) st.1.tl false
  let p11 := procLandmark tgt Quadrant.TopRight (f.items 11) st.1.tr p13.2
  let p14 := procLandmark tgt Quadrant.BottomLeft (f.items 14) st.1.bl p11.2
  let p12 := procLandmark tgt Quadrant.BottomRight (f.items 12) st.1.br p14.2
  let found := p12.2
  let car := if st.2.1.isNone || (frameCar.isSome && found) then frameCar
    else st.2.1
  let w := if st.2.2.1.isNone || found then some f.cols else st.2.2.1
  let h := if st.2.2.2.isNone || found then some f.rows else st.2.2.2
  (⟨p13.1, p11.1, p14.1, p12.1⟩, car, w, h)

/-- The whole fusion loop `for frame in [frame1, frame2].into_iter().flatten()`
(src/main.rs lines 152-213): absent frames are skipped by `flatten`, frames
whose detection errored are skipped by `continue`. -/
def fuseFrames (tgt : Quadrant) (mem : Mem) (frames : List FrameResult) :
    FuseState :=
  frames.foldl
    (fun st fr =>
      match fr with
      | some (Except.ok f) => processFrame tgt st f
      | _ => st)
    (mem, none, none, none)

-- ─── Control-loop tick (src/main.rs lines 215-261) ───────────────────────────

/-- The `match tgt` lookup of the targeted quadrant's remembered landmark
(src/main.rs lines 231-236). -/
def memSlot (tgt : Quadrant) (mem : Mem) : Option Obs :=
  match tgt with
  | Quadrant.TopLeft => mem.tl
  | Quadrant.TopRight => mem.tr
  | Quadrant.BottomLeft => mem.bl
  | Quadrant.BottomRight => mem.br

/-- The post-fusion control branch (src/main.rs lines 218-261): decides the
new consecutive-miss counter and which drive command (if any) is dispatched.
The frame dimensions feed only the `car_quad` log line, so they do not enter
the control decision. -/
noncomputable def controlStep (tgt : Quadrant) (mem : Mem) (noCar : ℕ)
    (car : Option Obs) : ℕ × Option DriveCmd :=
  match car with
  | none =>
    let c := noCar + 1
    (c, if 3 < c then some ⟨0.45 * TURN_POLARITY, true⟩ else none)
  | some (pos, heading) =>
    match memSlot tgt mem with
    | none => (0, none)
    | some (tgtCentre, _) =>
      let dist := hypot (pos.1 - tgtCentre.1) (pos.2 - tgtCentre.2)
      if dist < 50 then (0, some ⟨0, false⟩)
      else (0, some (steer pos heading tgtCentre))

/-- One control-loop tick after a target is set: fusion, then the
`w.unwrap()` / `h.unwrap()` of src/main.rs lines 215-216, then the control
branch. The outer `none` models the `unwrap` panicking on `None`. -/
noncomputable def tick (tgt : Quadrant) (mem : Mem) (noCar : ℕ)
    (frames : List FrameResult) : Option (Mem × ℕ × Option DriveCmd) :=
  match fuseFrames tgt mem frames with
  | (mem2, car, some _, some _) => some (mem2, controlStep tgt mem2 noCar car)
  | _ => none

-- ─── Oracle client (src/main.rs lines 109-122 and 391-419) ───────────────────

/-- `query_oracle` without the `ORACLE` compile-time override: the input
models the transport outcome (`.error ()` for an unreachable endpoint or a
non-success status, `.ok raw` for the raw quadrant text extracted from the
body — the serde unwrapping of a JSON string or object is string plumbing
that funnels every response form into `Quadrant::parse`).  A failed parse
becomes `Err` via `with_context`. -/
def query_oracle (resp : Except Unit (List Char)) : Except Unit Quadrant :=
  match resp with
  | Except.error e => Except.error e
  | Except.ok raw =>
    match Quadrant.parse raw with
    | some q => Except.ok q
    | none => Except.error ()

/-- The oracle-poll state update in the main loop (src/main.rs lines
109-122): `Ok` installs the quadrant when it differs from the current
target, `Err` is logged and leaves the target untouched. -/
def oraclePoll (target : Option Quadrant) (resp : Except Unit (List Char)) :
    Option Quadrant :=
  match query_oracle resp with
  | Except.ok q => if target ≠ some q then some q else target
  | Except.error _ => target

/-- `query_oracle` including the `option_env!("ORACLE")` early return
(src/main.rs lines 392-394): when the compile-time variable is set the
network is never touched and `Quadrant::parse(oracle).unwrap()` is returned;
the outer `none` models that `unwrap` panicking on an unrecognized string. -/
def query_oracle_env (envOracle : Option (List Char))
    (resp : Except Unit (List Char)) : Option (Except Unit Quadrant) :=
  match envOracle with
  | some oracle =>
    match Quadrant.parse oracle with
    | some q => some (Except.ok q)
    | none => none
  | none => some (query_oracle resp)

-- ─── Spec-side definition for the fusion-override claim ──────────────────────

/-- The `found` flag of a frame, phrased as the spec does: the frame contains
the landmark of the currently targeted quadrant. -/
def foundTargetLandmark (tgt : Quadrant) (f : ProcFrame) : Bool :=
  (f.items (landmarkId tgt)).isSome

/-- Spec-side description of the fused vehicle pose for a pair of processed
frames (§4.2): the vehicle observation of the first frame that has one,
unless the later frame both contains the vehicle marker and has the
found-target-landmark flag set — then that observation overrides. -/
def specFusedCar (tgt : Quadrant) (f1 f2 : ProcFrame) : Option Obs :=
  if (f2.items CAR_MARKER_ID).isSome && foundTargetLandmark tgt f2 then
    f2.items CAR_MARKER_ID
  else
    (f1.items CAR_MARKER_ID).orElse (fun _ => f2.items CAR_MARKER_ID)

-- ─── Concrete fixtures used by counterexamples and witnesses ─────────────────

/-- Landmark memory with all four slots empty (process start). -/
def mem0 : Mem := ⟨none, none, none, none⟩

/-- A processed frame in which the detector found no markers at all. -/
def emptyFrame : ProcFrame := ⟨fun _ => none, 640, 480⟩

/-- A tick's frame results when camera 1 yields a marker-free frame and
camera 2 is down: the fusion loop runs, the car is missing. -/
def missFrames : List FrameResult := [some (Except.ok emptyFrame), none]

/-- Landmark memory whose TopLeft slot holds a landmark at `(0, 49.9)`. -/
def memTL : Mem := ⟨some ((0, 49.9), 0), none, none, none⟩

-- ═══ Theorems ════════════════════════════════════════════════════════════════

-- ─── Arithmetic helper for the loop measures ─────────────────────────────────

theorem ceil_sub_one_le {t : ℝ} (ht : 0 < t) :
    Nat.ceil (t - 1) ≤ Nat.ceil t - 1 := by
  have hone : 1 ≤ Nat.ceil t := Nat.ceil_pos.mpr ht
  apply Nat.ceil_le.mpr
  have hcast : ((Nat.ceil t - 1 : ℕ) : ℝ) = (Nat.ceil t : ℝ) - 1 := by
    push_cast [Nat.cast_sub hone]
    ring
  rw [hcast]
  linarith [Nat.le_ceil t]

-- ─── Normalization-loop lemmas ───────────────────────────────────────────────

theorem wrapDown_of_le {e : ℝ} (h : e ≤ Real.pi) : wrapDown e = e := by
  rw [wrapDown]
  exact if_neg (not_lt.mpr h)

theorem wrapUp_of_ge {e : ℝ} (h : -Real.pi ≤ e) : wrapUp e = e := by
  rw [wrapUp]
  exact if_neg (not_lt.mpr h)

theorem wrapDown_le (e : ℝ) : wrapDown e ≤ Real.pi := by
  suffices H : ∀ n : ℕ, ∀ x : ℝ,
      Nat.ceil ((x - Real.pi) / (2 * Real.pi)) ≤ n → wrapDown x ≤ Real.pi from
    H _ e le_rfl
  intro n
  induction n with
  | zero =>
    intro x hx
    rw [wrapDown]
    split_ifs with h
    · exfalso
      have hpi := Real.pi_pos
      have ht : (0 : ℝ) < (x - Real.pi) / (2 * Real.pi) :=
        div_pos (by linarith) (by linarith)
      have := Nat.ceil_pos.mpr ht
      omega
    · exact not_lt.mp h
  | succ n ih =>
    intro x hx
    rw [wrapDown]
    split_ifs with h
    · apply ih
      have hpi := Real.pi_pos
      have key : (x - 2 * Real.pi - Real.pi) / (2 * Real.pi)
          = (x - Real.pi) / (2 * Real.pi) - 1 := by
        field_simp
        ring
      rw [key]
      have ht : (0 : ℝ) < (x - Real.pi) / (2 * Real.pi) :=
        div_pos (by linarith) (by linarith)
      have := ceil_sub_one_le ht
      omega
    · exact not_lt.mp h

theorem wrapUp_mem {e : ℝ} (he : e ≤ Real.pi) :
    -Real.pi ≤ wrapUp e ∧ wrapUp e ≤ Real.pi := by
  suffices H : ∀ n : ℕ, ∀ x : ℝ, x ≤ Real.pi →
      Nat.ceil ((-Real.pi - x) / (2 * Real.pi)) ≤ n →
      -Real.pi ≤ wrapUp x ∧ wrapUp x ≤ Real.pi from
    H _ e he le_rfl
  intro n
  induction n with
  | zero =>
    intro x hxle hx
    rw [wrapUp]
    split_ifs with h
    · exfalso
      have hpi := Real.pi_pos
      have ht : (0 : ℝ) < (-Real.pi - x) / (2 * Real.pi) :=
        div_pos (by linarith) (by linarith)
      have := Nat.ceil_pos.mpr ht
      omega
    · exact ⟨not_lt.mp h, hxle⟩
  | succ n ih =>
    intro x hxle hx
    rw [wrapUp]
    split_ifs with h
    · have hpi := Real.pi_pos
      apply ih
      · linarith
      · have key : (-Real.pi - (x + 2 * Real.pi)) / (2 * Real.pi)
            = (-Real.pi - x) / (2 * Real.pi) - 1 := by
          field_simp
          ring
        rw [key]
        have ht : (0 : ℝ) < (-Real.pi - x) / (2 * Real.pi) :=
          div_pos (by linarith) (by linarith)
        have := ceil_sub_one_le ht
        omega
    · exact ⟨not_lt.mp h, hxle⟩

theorem normalizeErr_mem (e : ℝ) :
    -Real.pi ≤ normalizeErr e ∧ normalizeErr e ≤ Real.pi :=
  wrapUp_mem (wrapDown_le e)

theorem normalizeErr_of_mem {e : ℝ} (h1 : -Real.pi ≤ e) (h2 : e ≤ Real.pi) :
    normalizeErr e = e := by
  unfold normalizeErr
  rw [wrapDown_of_le h2, wrapUp_of_ge h1]

/-- **C2** (amended): for desired bearing and heading each within
`(-2π, 2π)`, the normalized heading error lies in the closed interval
`[-π, π]`; the lower endpoint `-π` is attainable, so it cannot be
excluded. -/
theorem C2_norm_range (desired hdg : ℝ)
    (h1 : -(2 * Real.pi) < desired) (h2 : desired < 2 * Real.pi)
    (h3 : -(2 * Real.pi) < hdg) (h4 : hdg < 2 * Real.pi) :
    -Real.pi ≤ normalizeErr (desired - hdg) ∧
      normalizeErr (desired - hdg) ≤ Real.pi :=
  normalizeErr_mem (desired - hdg)

theorem C2_norm_range_witness :
    (-(2 * Real.pi) < 0 ∧ (0 : ℝ) < 2 * Real.pi ∧
      -(2 * Real.pi) < 1 ∧ (1 : ℝ) < 2 * Real.pi) ∧
    (-Real.pi ≤ normalizeErr (0 - 1) ∧ normalizeErr (0 - 1) ≤ Real.pi) := by
  have hpi := Real.pi_gt_three
  refine ⟨⟨by linarith, by linarith, by linarith, by linarith⟩, ?_⟩
  exact C2_norm_range 0 1 (by linarith) (by linarith) (by linarith)
    (by linarith)

/-- **C2** (counterexample): with desired bearing `0` and heading `π` — both
within `(-2π, 2π)` — the raw error `-π` is left unchanged by both correction
loops, so the normalized error is exactly `-π`, which the claimed half-open
interval `(-π, π]` excludes. -/
theorem C2_counterexample :
    (-(2 * Real.pi) < 0 ∧ (0 : ℝ) < 2 * Real.pi ∧
      -(2 * Real.pi) < Real.pi ∧ Real.pi < 2 * Real.pi) ∧
    ¬(-Real.pi < normalizeErr (0 - Real.pi) ∧
        normalizeErr (0 - Real.pi) ≤ Real.pi) := by
  have hpi := Real.pi_pos
  have hval : normalizeErr (0 - Real.pi) = -Real.pi := by
    rw [show (0 : ℝ) - Real.pi = -Real.pi by ring]
    exact normalizeErr_of_mem le_rfl (by linarith)
  refine ⟨⟨by linarith, by linarith, by linarith, by linarith⟩, ?_⟩
  rw [hval]
  intro hcon
  exact lt_irrefl _ hcon.1

-- ─── C3: midline classification ──────────────────────────────────────────────

/-- **C3** (amended): a point lying exactly on the vertical midline
`x = w/2` (resp. the horizontal midline `y = h/2`) is classified toward the
*lesser* side of that midline — to the left (resp. the top) — because the
source compares with strict `>`. -/
theorem C3_midline_lesser :
    (∀ x y w h : ℚ, x = w / 2 →
      Quadrant.from_pos x y w h = Quadrant.TopLeft ∨
        Quadrant.from_pos x y w h = Quadrant.BottomLeft) ∧
    (∀ x y w h : ℚ, y = h / 2 →
      Quadrant.from_pos x y w h = Quadrant.TopLeft ∨
        Quadrant.from_pos x y w h = Quadrant.TopRight) := by
  constructor
  · intro x y w h hx
    subst hx
    unfold Quadrant.from_pos
    simp only [gt_iff_lt, lt_self_iff_false, decide_False]
    cases h2 : decide (h / 2 < y) <;> simp
  · intro x y w h hy
    subst hy
    unfold Quadrant.from_pos
    simp only [gt_iff_lt, lt_self_iff_false, decide_False]
    cases h2 : decide (w / 2 < x) <;> simp

theorem C3_midline_lesser_witness :
    (1 : ℚ) = 2 / 2 ∧
    (Quadrant.from_pos 1 0 2 2 = Quadrant.TopLeft ∨
      Quadrant.from_pos 1 0 2 2 = Quadrant.BottomLeft) :=
  ⟨by norm_num, C3_midline_lesser.1 1 0 2 2 (by norm_num)⟩

/-- **C3** (counterexample): the point `(1, 0)` in a `2 × 2` frame lies
exactly on the vertical midline; the claim says it is classified to the
right, but `from_pos` classifies it as `TopLeft`. -/
theorem C3_counterexample :
    Quadrant.from_pos 1 0 2 2 = Quadrant.TopLeft ∧
    ¬(Quadrant.from_pos 1 0 2 2 = Quadrant.TopRight ∨
        Quadrant.from_pos 1 0 2 2 = Quadrant.BottomRight) := by
  have h1 : Quadrant.from_pos 1 0 2 2 = Quadrant.TopLeft := by
    unfold Quadrant.from_pos
    rw [show decide ((1 : ℚ) > 2 / 2) = false from decide_eq_false (by norm_num)]
    rw [show decide ((0 : ℚ) > 2 / 2) = false from decide_eq_false (by norm_num)]
  refine ⟨h1, ?_⟩
  rw [h1]
  rintro (hc | hc) <;> exact Quadrant.noConfusion hc

-- ─── Steering-policy evaluation helpers ──────────────────────────────────────

theorem atan2_hundred_zero : atan2 100 0 = Real.pi / 2 := by
  unfold atan2
  have h : Complex.ofReal 0 + Complex.ofReal 100 * Complex.I
      = (100 : ℝ) * Complex.I := by
    push_cast
    ring
  rw [h, Complex.arg_real_mul Complex.I (by norm_num : (0 : ℝ) < 100),
    Complex.arg_I]

/-- Evaluation of `steer` on the C4 scenario: vehicle at the origin heading
`0`, target centre at `(0, 100)`. -/
theorem steer_origin_north :
    steer (0, 0) 0 (0, 100) = ⟨TURN_POLARITY * 0.2, true⟩ := by
  have hpi := Real.pi_gt_three
  unfold steer
  norm_num [atan2_hundred_zero]
  rw [normalizeErr_of_mem (by linarith) (by linarith)]
  rw [if_pos (by rw [abs_of_pos (by linarith)]; unfold ANGLE_OK; linarith)]
  rw [if_pos (by linarith)]

/-- **C4** (amended): for the input position `(0,0)`, heading `0`, target
centre `(0,100)`, `steer` returns the turn command with
speed `= 0.20 × polarity` (the error is positive), which is `-0.20` with the
configured `TURN_POLARITY = -1.0`, and `flip = true`. -/
theorem C4_turn_scenario :
    steer (0, 0) 0 (0, 100) = ⟨TURN_POLARITY * 0.2, true⟩ ∧
    TURN_POLARITY * 0.2 = -(0.2 : ℝ) :=
  ⟨steer_origin_north, by unfold TURN_POLARITY; norm_num⟩

/-- **C4** (counterexample): the claim says the returned speed equals
`-0.20 × polarity`, which with `TURN_POLARITY = -1.0` is `+0.20`; the code
returns speed `-0.20`. -/
theorem C4_counterexample :
    (steer (0, 0) 0 (0, 100)).speed ≠ -(0.2) * TURN_POLARITY := by
  rw [steer_origin_north]
  unfold TURN_POLARITY
  norm_num

-- ─── C5: turn-command magnitude ──────────────────────────────────────────────

/-- **C5** (amended): every command produced by the steering policy with
`flip = true` has speed magnitude exactly `0.20`.  (The control loop's
search-spin dispatch also has `flip = true` but magnitude `0.45`; see the
counterexample.) -/
theorem C5_steer_turn_magnitude (pos : ℝ × ℝ) (hdg : ℝ) (target : ℝ × ℝ)
    (hflip : (steer pos hdg target).flip = true) :
    |(steer pos hdg target).speed| = 0.2 := by
  unfold steer at hflip ⊢
  simp only at hflip ⊢
  split_ifs at hflip ⊢ with h1 h2
  · rw [show TURN_POLARITY * (0.2 : ℝ) = -0.2 by unfold TURN_POLARITY; norm_num]
    rw [abs_of_neg (by norm_num : (-0.2 : ℝ) < 0)]
    norm_num
  · rw [show TURN_POLARITY * (-0.2 : ℝ) = 0.2 by unfold TURN_POLARITY; norm_num]
    rw [abs_of_pos (by norm_num : (0 : ℝ) < 0.2)]

/-- The steering policy never emits the search-spin command value
`(0.45 × polarity, flip = true)`: its turn speeds are `±0.20`. -/
theorem steer_not_spin (pos : ℝ × ℝ) (hdg : ℝ) (t : ℝ × ℝ) :
    steer pos hdg t ≠ ⟨0.45 * TURN_POLARITY, true⟩ := by
  unfold steer
  simp only
  split_ifs with h1 h2 <;> intro hcon <;> rw [DriveCmd.mk.injEq] at hcon
  · have := hcon.1
    unfold TURN_POLARITY at this
    norm_num at this
  · have := hcon.1
    unfold TURN_POLARITY at this
    norm_num at this
  · exact Bool.noConfusion hcon.2

/-- The steering policy never emits the hold command `(0, flip = false)`:
its forward speeds are clamped to at least `0.45`. -/
theorem steer_ne_hold (pos : ℝ × ℝ) (hdg : ℝ) (t : ℝ × ℝ) :
    steer pos hdg t ≠ ⟨0, false⟩ := by
  unfold steer
  simp only
  split_ifs with h1 h2 <;> intro hcon <;> rw [DriveCmd.mk.injEq] at hcon
  · exact Bool.noConfusion hcon.2
  · exact Bool.noConfusion hcon.2
  · have h45 : (0.45 : ℝ) ≤ 0 := by
      rw [← hcon.1]
      exact le_min (le_max_right _ _) (by norm_num)
    norm_num at h45

/-- Evaluation of a tick over `missFrames` (one marker-free frame, one absent
frame): the fusion yields no car, the miss counter increments, and the
search-spin command is dispatched exactly when the new counter exceeds 3. -/
theorem tick_missFrames (tgt : Quadrant) (n : ℕ) :
    tick tgt mem0 n missFrames
      = some (mem0, n + 1,
          if 3 < n + 1 then some ⟨0.45 * TURN_POLARITY, true⟩ else none) := by
  simp [tick, fuseFrames, missFrames, processFrame, procLandmark, emptyFrame,
    mem0, controlStep]

/-- **C5** (counterexample): on the fourth consecutive miss the control loop
dispatches the search-spin command, which has `flip = true` but speed
magnitude `0.45`, not `0.20`. -/
theorem C5_counterexample :
    tick Quadrant.TopLeft mem0 3 missFrames
      = some (mem0, 4, some ⟨0.45 * TURN_POLARITY, true⟩) ∧
    ¬(|(0.45 : ℝ) * TURN_POLARITY| = 0.2) := by
  constructor
  · rw [tick_missFrames]
    norm_num
  · unfold TURN_POLARITY
    rw [show (0.45 : ℝ) * -1.0 = -0.45 by norm_num]
    rw [abs_of_neg (by norm_num : (-0.45 : ℝ) < 0)]
    norm_num

theorem C5_steer_turn_magnitude_witness :
    (steer (0, 0) 0 (0, 100)).flip = true ∧
    |(steer (0, 0) 0 (0, 100)).speed| = 0.2 := by
  have hflip : (steer ((0 : ℝ), (0 : ℝ)) 0 ((0 : ℝ), 100)).flip = true := by
    rw [steer_origin_north]
  exact ⟨hflip, C5_steer_turn_magnitude _ _ _ hflip⟩

-- ─── C6: miss counting and the search spin ───────────────────────────────────

/-- **C6**: a search-spin command (speed `0.45 × polarity`, `flip = true`)
is dispatched only on a tick whose post-increment consecutive-miss counter
strictly exceeds 3; and a run of exactly four consecutive vehicle-missing
ticks from a reset counter dispatches the spin exactly once, on the fourth
tick. -/
theorem C6_spin_gating :
    (∀ (tgt : Quadrant) (mem : Mem) (n : ℕ) (frames : List FrameResult)
        (mem2 : Mem) (n2 : ℕ) (cmd : DriveCmd),
      tick tgt mem n frames = some (mem2, n2, some cmd) →
      cmd.flip = true → cmd.speed = 0.45 * TURN_POLARITY →
      n2 = n + 1 ∧ 3 < n + 1) ∧
    (tick Quadrant.TopLeft mem0 0 missFrames = some (mem0, 1, none) ∧
      tick Quadrant.TopLeft mem0 1 missFrames = some (mem0, 2, none) ∧
      tick Quadrant.TopLeft mem0 2 missFrames = some (mem0, 3, none) ∧
      tick Quadrant.TopLeft mem0 3 missFrames
        = some (mem0, 4, some ⟨0.45 * TURN_POLARITY, true⟩)) := by
  constructor
  · intro tgt mem n frames mem2 n2 cmd htick hflip hspeed
    unfold tick at htick
    rcases hf : fuseFrames tgt mem frames with ⟨m2, car, w2, h2⟩
    rw [hf] at htick
    cases w2 with
    | none => exact Option.noConfusion htick
    | some wv =>
      cases h2 with
      | none => exact Option.noConfusion htick
      | some hv =>
        simp only [Option.some.injEq, Prod.mk.injEq] at htick
        obtain ⟨-, hctl⟩ := htick
        cases car with
        | none =>
          unfold controlStep at hctl
          simp only [Prod.mk.injEq] at hctl
          obtain ⟨hn, hcmdeq⟩ := hctl
          by_cases hgt : 3 < n + 1
          · exact ⟨hn.symm, hgt⟩
          · rw [if_neg hgt] at hcmdeq
            exact Option.noConfusion hcmdeq
        | some obs =>
          obtain ⟨opos, ohdg⟩ := obs
          unfold controlStep at hctl
          cases hms : memSlot tgt m2 with
          | none =>
            rw [hms] at hctl
            simp only [Prod.mk.injEq] at hctl
            exact Option.noConfusion hctl.2
          | some tobs =>
            obtain ⟨tc, thdg⟩ := tobs
            rw [hms] at hctl
            simp only at hctl
            split_ifs at hctl with hd
            · have hcmd : (⟨0, false⟩ : DriveCmd) = cmd := by
                have h2c := congrArg Prod.snd hctl
                simpa using h2c
              rw [← hcmd] at hflip
              exact Bool.noConfusion hflip
            · have hcmd : steer opos ohdg tc = cmd := by
                have h2c := congrArg Prod.snd hctl
                simpa using h2c
              exfalso
              apply steer_not_spin opos ohdg tc
              rw [hcmd]
              exact DriveCmd.ext hspeed hflip
  · refine ⟨?_, ?_, ?_, ?_⟩ <;> rw [tick_missFrames] <;> norm_num

theorem C6_spin_gating_witness :
    (4 : ℕ) = 3 + 1 ∧ 3 < 3 + 1 :=
  C6_spin_gating.1 Quadrant.TopLeft mem0 3 missFrames mem0 4
    ⟨0.45 * TURN_POLARITY, true⟩ (by rw [tick_missFrames]; norm_num) rfl rfl

-- ─── C1: both frames absent ⇒ the dimension unwrap panics ────────────────────

/-- **C1** (code evaluated at the failing input): on a tick with a target
set and both camera frames absent, the fusion loop body never runs, the
frame-dimension options stay `None`, and `w.unwrap()` (src/main.rs line 215)
hits its `None` branch — the modelled tick is the panic value `none`,
contradicting the claim that this branch is unreachable and that no failure
mode is fatal. -/
theorem C1_both_frames_absent_panics (tgt : Quadrant) (mem : Mem) (n : ℕ) :
    tick tgt mem n [none, none] = none := rfl

-- ─── C7: arrival threshold ───────────────────────────────────────────────────

/-- **C7**: on a tick where the vehicle is found and the target centre is
known, the control branch issues the hold command `(speed 0, flip false)`
with a reset miss counter exactly when the Euclidean distance from vehicle
position to target centre is strictly less than `50.0`. -/
theorem C7_arrival_threshold (tgt : Quadrant) (mem : Mem) (n : ℕ)
    (pos : ℝ × ℝ) (hdg : ℝ) (c : ℝ × ℝ) (chdg : ℝ)
    (hmem : memSlot tgt mem = some (c, chdg)) :
    controlStep tgt mem n (some (pos, hdg)) = (0, some ⟨0, false⟩) ↔
      hypot (pos.1 - c.1) (pos.2 - c.2) < 50 := by
  unfold controlStep
  rw [hmem]
  simp only
  split_ifs with hd
  · exact iff_of_true rfl hd
  · refine iff_of_false ?_ hd
    intro hcon
    have h2c := congrArg Prod.snd hcon
    simp only [Option.some.injEq] at h2c
    exact steer_ne_hold pos hdg c h2c

theorem C7_arrival_threshold_witness :
    memSlot Quadrant.TopLeft memTL = some ((0, 49.9), 0) ∧
    controlStep Quadrant.TopLeft memTL 7 (some ((0, 0), 0))
      = (0, some ⟨0, false⟩) := by
  have hmem : memSlot Quadrant.TopLeft memTL
      = some (((0 : ℝ), (49.9 : ℝ)), (0 : ℝ)) := rfl
  refine ⟨hmem, ?_⟩
  apply (C7_arrival_threshold Quadrant.TopLeft memTL 7 (0, 0) 0
    (0, 49.9) 0 hmem).mpr
  unfold hypot
  rw [show ((0 : ℝ) - 0) * ((0 : ℝ) - 0)
      + ((0 : ℝ) - 49.9) * ((0 : ℝ) - 49.9) = 49.9 ^ 2 by norm_num]
  rw [Real.sqrt_sq (by norm_num : (0 : ℝ) ≤ 49.9)]
  norm_num

-- ─── C8: the fusion override rule ────────────────────────────────────────────

/-- The `found` flag accumulated across the four landmark blocks equals the
spec's found-target-landmark flag: the frame contains the landmark of the
targeted quadrant. -/
theorem foundChain (tgt : Quadrant) (f : ProcFrame)
    (s1 s2 s3 s4 : Option Obs) :
    (procLandmark tgt Quadrant.BottomRight (f.items 12) s4
        (procLandmark tgt Quadrant.BottomLeft (f.items 14) s3
          (procLandmark tgt Quadrant.TopRight (f.items 11) s2
            (procLandmark tgt Quadrant.TopLeft (f.items 13) s1
              false).2).2).2).2
      = foundTargetLandmark tgt f := by
  cases tgt <;> cases h13 : f.items 13 <;> cases h11 : f.items 11 <;>
    cases h14 : f.items 14 <;> cases h12 : f.items 12 <;>
    simp [procLandmark, foundTargetLandmark, landmarkId, h13, h11, h14, h12]

/-- The fused car observation after one frame: the frame's car observation
is taken when no car was seen yet, or when the frame has both the car and
the found-target-landmark flag. -/
theorem processFrame_car (tgt : Quadrant) (st : FuseState) (f : ProcFrame) :
    (processFrame tgt st f).2.1
      = if st.2.1.isNone
            || ((f.items CAR_MARKER_ID).isSome && foundTargetLandmark tgt f)
        then f.items CAR_MARKER_ID else st.2.1 := by
  unfold processFrame
  simp only
  rw [foundChain]

/-- **C8**: for every pair of successfully processed frames, the fused
vehicle pose is the first frame's vehicle observation, overridden by the
second frame's exactly when the second frame has both the vehicle marker
and the landmark of the targeted quadrant (`specFusedCar` restates the
spec's fusion rule verbatim). -/
theorem C8_fusion_override (tgt : Quadrant) (mem : Mem) (f1 f2 : ProcFrame) :
    (fuseFrames tgt mem
        [some (Except.ok f1), some (Except.ok f2)]).2.1
      = specFusedCar tgt f1 f2 := by
  unfold fuseFrames
  simp only [List.foldl]
  rw [processFrame_car, processFrame_car]
  simp only [Option.isNone_none, Bool.true_or, if_true]
  cases h1 : f1.items CAR_MARKER_ID with
  | none =>
    simp [specFusedCar, h1, Option.orElse]
  | some a =>
    cases hfound : (f2.items CAR_MARKER_ID).isSome
        && foundTargetLandmark tgt f2 <;>
      simp [specFusedCar, h1, hfound, Option.orElse]

-- ─── C9: oracle failures retain the target ───────────────────────────────────

/-- **C9**: a failed oracle poll — transport error, non-success status, or a
body whose text fails quadrant parsing (all modelled as `query_oracle`
returning `Err`) — leaves the target state unchanged; conversely, the target
state changes only on a successful poll parsing to a quadrant different
from the current one. -/
theorem C9_poll_failure_retains (target : Option Quadrant)
    (resp : Except Unit (List Char)) :
    (∀ e : Unit, query_oracle resp = Except.error e →
      oraclePoll target resp = target) ∧
    (oraclePoll target resp ≠ target →
      ∃ q : Quadrant, query_oracle resp = Except.ok q ∧ target ≠ some q) := by
  constructor
  · intro e he
    unfold oraclePoll
    rw [he]
  · intro hne
    unfold oraclePoll at hne
    cases hq : query_oracle resp with
    | error e =>
      rw [hq] at hne
      exact absurd rfl hne
    | ok q =>
      rw [hq] at hne
      simp only at hne
      refine ⟨q, rfl, ?_⟩
      intro hcon
      rw [if_neg (by simp [hcon])] at hne
      exact hne rfl

theorem C9_poll_failure_retains_witness :
    query_oracle (Except.ok ['j', 'u', 'n', 'k']) = Except.error () ∧
    oraclePoll (some Quadrant.TopLeft) (Except.ok ['j', 'u', 'n', 'k'])
      = some Quadrant.TopLeft := by
  have hfail : query_oracle (Except.ok ['j', 'u', 'n', 'k'])
      = Except.error () := rfl
  exact ⟨hfail,
    (C9_poll_failure_retains (some Quadrant.TopLeft)
      (Except.ok ['j', 'u', 'n', 'k'])).1 () hfail⟩

-- ─── C10: the compile-time ORACLE override ───────────────────────────────────

/-- **C10**: with the `ORACLE` compile-time variable set, the oracle query
ignores the network response entirely; it returns the quadrant parsed from
the fixed string when recognized, and panics (`unwrap` on `None`, modelled
by the outer `none`) when the string is not a recognized quadrant code. -/
theorem C10_env_override (s : List Char)
    (resp resp2 : Except Unit (List Char)) :
    query_oracle_env (some s) resp = query_oracle_env (some s) resp2 ∧
    (∀ q : Quadrant, Quadrant.parse s = some q →
      query_oracle_env (some s) resp = some (Except.ok q)) ∧
    (Quadrant.parse s = none → query_oracle_env (some s) resp = none) := by
  refine ⟨rfl, ?_, ?_⟩
  · intro q hq
    unfold query_oracle_env
    simp only
    rw [hq]
  · intro hq
    unfold query_oracle_env
    simp only
    rw [hq]

theorem C10_env_override_witness :
    Quadrant.parse ['X'] = none ∧
    query_oracle_env (some ['X']) (Except.error ()) = none := by
  have hparse : Quadrant.parse ['X'] = none := rfl
  exact ⟨hparse,
    (C10_env_override ['X'] (Except.error ()) (Except.error ())).2.2 hparse⟩
